import Mathlib

/-!
Verification development for the journal-tailing and projection engine of
the linear-agent repository: a shallow embedding in Lean 4 of the rate
limiter (src/rate-limiter.ts), the tool-map table (src/claude/tool-mapping.ts),
the plan reducer (src/claude/plan-tracker.ts), the activity emitter
(src/claude/emitter.ts) and the file tailer / successor scanner
(src/claude/watcher.ts), together with theorems about the quantified
properties the specification states for them.

Modelling conventions:
* JavaScript strings appearing as record fields are modelled as Lean
  `String`; where byte-level splitting matters (the tailer) a string is a
  `List Char`, one `Char` per byte (ASCII inputs, so Buffer.byteLength is
  `List.length`).
* A JavaScript `Map` is an insertion-ordered association list; `set`
  replaces in place (the JS Map keeps the original insertion position),
  `delete` removes, `get` looks up.
* `JSON.parse` of a journal line is an external library call; its outcome
  is passed to the embedded code as an `Option` value (`none` models the
  parse throwing).
* Outbound writes are modelled as an emitted list of `Output` values: an
  activity (`createAgentActivity`, with its ephemeral flag) or a plan
  update (`updateAgentSession`).  Failures of these calls are swallowed by
  the source, so an emission is the attempted call.
-/

namespace LinearAgent

/-! ### Character-list utilities modelling JavaScript string operations -/

/-- Whitespace for the purposes of `String.prototype.trim`. -/
def isWsChar (c : Char) : Bool := c = ' ' || c = '\t' || c = '\n' || c = '\r'

/-- JavaScript `s.trim()` on a character list. -/
def jsTrim (s : List Char) : List Char :=
  ((s.dropWhile isWsChar).reverse.dropWhile isWsChar).reverse

/-- Does the second list start with the first (helper for substring search)? -/
def leadsWith : List Char → List Char → Bool
  | [], _ => true
  | _ :: _, [] => false
  | p :: ps, c :: cs => p = c && leadsWith ps cs

/-- JavaScript `s.includes(pat)`: naive substring search. -/
def hasSub (pat : List Char) : List Char → Bool
  | [] => leadsWith pat []
  | c :: cs => leadsWith pat (c :: cs) || hasSub pat cs

/-- JavaScript `s.split("\n")`: every segment, including a trailing empty one
when the string ends in a newline (`"".split` gives `[""]`). -/
def splitAll : List Char → List (List Char)
  | [] => [[]]
  | c :: cs =>
    if c = '\n' then [] :: splitAll cs
    else
      match splitAll cs with
      | [] => [[c]]
      | s :: ss => (c :: s) :: ss

/-- JavaScript `s.endsWith("\n")` (false on the empty string). -/
def jsEndsWithNl (s : List Char) : Bool := s.getLast? = some '\n'

/-- `Blob.slice(start, fin).text()` index semantics: negative indices count
from the end, both ends are clamped to `[0, size]`. -/
def jsSlice (f : List Char) (start fin : Int) : List Char :=
  let size : Int := f.length
  let relStart : Int := if start < 0 then max (size + start) 0 else min start size
  let relEnd : Int := if fin < 0 then max (size + fin) 0 else min fin size
  (f.take relEnd.toNat).drop relStart.toNat

/-! ### Insertion-ordered map (JavaScript `Map`) as an association list -/

/-- `map.get(k)`. -/
def mapGet (m : List (String × α)) (k : String) : Option α :=
  (m.find? (fun p => p.1 = k)).map (·.2)

/-- `map.set(k, v)`: replaces in place when the key exists (keeping its
insertion position), appends otherwise. -/
def mapSet (m : List (String × α)) (k : String) (v : α) : List (String × α) :=
  if m.any (fun p => p.1 = k) then
    m.map (fun p => if p.1 = k then (k, v) else p)
  else m ++ [(k, v)]

/-- `map.delete(k)`. -/
def mapDelete (m : List (String × α)) (k : String) : List (String × α) :=
  m.filter (fun p => p.1 ≠ k)

/-- `set.add(x)` on a `Set` modelled as a duplicate-free list. -/
def setAdd (l : List String) (x : String) : List String :=
  if x ∈ l then l else l ++ [x]

/-! ### Tool inputs (src/claude/tool-mapping.ts, src/claude/plan-tracker.ts) -/

/-- One element of a `TodoWrite` input's `todos` array. -/
structure TodoItem where
  content : Option String := none
  status : Option String := none
deriving Repr, DecidableEq

/-- The input object of a tool invocation: the fields the tool mappers and
the plan reducer read.  A missing field is `none`. -/
structure ToolInput where
  command : Option String := none
  file_path : Option String := none
  pattern : Option String := none
  description : Option String := none
  url : Option String := none
  query : Option String := none
  subject : Option String := none
  taskId : Option String := none
  skill : Option String := none
  notebook_path : Option String := none
  /-- `input.questions`, modelled as the list of the question texts. -/
  questions : Option (List String) := none
  todos : Option (List TodoItem) := none
  status : Option String := none
deriving Repr, DecidableEq

/-- `String(v ?? '')`. -/
def jsStr (v : Option String) : String := v.getD ""

/-- JavaScript truthiness of an optional string (`undefined` and `""` are
falsy). -/
def truthy (v : Option String) : Bool :=
  match v with
  | none => false
  | some s => s ≠ ""

/-- A tool mapper's return value `{action, parameter, result?}`. -/
structure ToolMapped where
  action : String
  parameter : String
  result : Option String := none
deriving Repr, DecidableEq

/-- The `Bash` row of TOOL_MAPPING: the result is spread into the mapped
object only when it is truthy (present and non-empty). -/
def bashMapper (input : ToolInput) (result : Option String) : ToolMapped :=
  { action := "Ran command", parameter := jsStr input.command,
    result := if truthy result then result else none }

def editMapper (input : ToolInput) (_result : Option String) : ToolMapped :=
  { action := "Edited file", parameter := jsStr input.file_path }

def writeMapper (input : ToolInput) (_result : Option String) : ToolMapped :=
  { action := "Created file", parameter := jsStr input.file_path }

def readMapper (input : ToolInput) (_result : Option String) : ToolMapped :=
  { action := "Read file", parameter := jsStr input.file_path }

def globMapper (input : ToolInput) (_result : Option String) : ToolMapped :=
  { action := "Searched files", parameter := jsStr input.pattern }

def grepMapper (input : ToolInput) (_result : Option String) : ToolMapped :=
  { action := "Searched code", parameter := jsStr input.pattern }

def taskMapper (input : ToolInput) (_result : Option String) : ToolMapped :=
  { action := "Delegated subtask", parameter := jsStr input.description }

def webFetchMapper (input : ToolInput) (result : Option String) : ToolMapped :=
  { action := "Fetched URL", parameter := jsStr input.url,
    result := if truthy result then result else none }

def webSearchMapper (input : ToolInput) (_result : Option String) : ToolMapped :=
  { action := "Web search", parameter := jsStr input.query }

def taskCreateMapper (input : ToolInput) (_result : Option String) : ToolMapped :=
  { action := "Created task", parameter := jsStr input.subject }

def taskUpdateMapper (input : ToolInput) (_result : Option String) : ToolMapped :=
  { action := "Updated task", parameter := jsStr input.taskId }

def skillMapper (input : ToolInput) (_result : Option String) : ToolMapped :=
  { action := "Invoked skill", parameter := jsStr input.skill }

/-- `input.questions?.[0]?.question ?? ''`. -/
def askUserQuestionMapper (input : ToolInput) (_result : Option String) : ToolMapped :=
  { action := "Asked user",
    parameter := jsStr ((input.questions.getD []).head?) }

def notebookEditMapper (input : ToolInput) (_result : Option String) : ToolMapped :=
  { action := "Edited notebook", parameter := jsStr input.notebook_path }

/-- TOOL_MAPPING: the fixed `name → mapper` dispatch table; an unknown tool
name has no mapper. -/
def TOOL_MAPPING : String → Option (ToolInput → Option String → ToolMapped)
  | "Bash" => some bashMapper
  | "Edit" => some editMapper
  | "Write" => some writeMapper
  | "Read" => some readMapper
  | "Glob" => some globMapper
  | "Grep" => some grepMapper
  | "Task" => some taskMapper
  | "WebFetch" => some webFetchMapper
  | "WebSearch" => some webSearchMapper
  | "TaskCreate" => some taskCreateMapper
  | "TaskUpdate" => some taskUpdateMapper
  | "Skill" => some skillMapper
  | "AskUserQuestion" => some askUserQuestionMapper
  | "NotebookEdit" => some notebookEditMapper
  | _ => none

/-! ### Plan reducer (src/claude/plan-tracker.ts) -/

/-- One plan entry `{content, status}`; also the shape of an exported plan
item. -/
structure PlanItem where
  content : String
  status : String
deriving Repr, DecidableEq

/-- STATUS_MAP from plan-tracker.ts. -/
def STATUS_MAP : String → Option String
  | "pending" => some "pending"
  | "in_progress" => some "inProgress"
  | "completed" => some "completed"
  | "deleted" => some "canceled"
  | _ => none

/-- Scan for the regex `/Task #(\d+)/`: the first position where the text
`Task #` is followed by at least one digit; the capture is the maximal
digit run there. -/
def parseTaskIdGo : List Char → Option (List Char)
  | [] => none
  | c :: cs =>
    if leadsWith ("Task #".toList) (c :: cs) then
      let ds := ((c :: cs).drop 6).takeWhile Char.isDigit
      if ds = [] then parseTaskIdGo cs else some ds
    else parseTaskIdGo cs

/-- PlanTracker.parseTaskId. -/
def parseTaskId (resultText : String) : Option String :=
  (parseTaskIdGo resultText.toList).map (fun l => String.mk l)

/-- PlanTracker.handleTaskCreate: ignore when no `Task #n` in the result
text, else insert `{content: String(input.subject ?? ''), status: 'pending'}`
under the captured id. -/
def handleTaskCreate (tasks : List (String × PlanItem)) (input : ToolInput)
    (resultText : String) : List (String × PlanItem) :=
  match parseTaskId resultText with
  | none => tasks
  | some id => mapSet tasks id { content := jsStr input.subject, status := "pending" }

/-- PlanTracker.handleTaskUpdate: unknown id is ignored; status `deleted`
removes the entry; otherwise a truthy status and a truthy subject each
update the entry in place. -/
def handleTaskUpdate (tasks : List (String × PlanItem)) (input : ToolInput) :
    List (String × PlanItem) :=
  let id := jsStr input.taskId
  match mapGet tasks id with
  | none => tasks
  | some task =>
    if input.status = some "deleted" then mapDelete tasks id
    else
      let t1 := if truthy input.status then { task with status := jsStr input.status } else task
      let t2 := if truthy input.subject then { t1 with content := jsStr input.subject } else t1
      mapSet tasks id t2

/-- The rebuild loop of handleTodoWrite: `tasks.set(String(i), {content:
todo.content ?? '', status: todo.status ?? 'pending'})` for each index. -/
def buildTodos (acc : List (String × PlanItem)) (i : Nat) :
    List TodoItem → List (String × PlanItem)
  | [] => acc
  | t :: ts =>
    buildTodos
      (mapSet acc (toString i)
        { content := jsStr t.content, status := (t.status).getD "pending" })
      (i + 1) ts

/-- PlanTracker.handleTodoWrite: `tasks.clear()` (so the previous map is
discarded), then, unless `todos` is absent, re-insert every element under
the string form of its index. -/
def handleTodoWrite (_tasks : List (String × PlanItem)) (input : ToolInput) :
    List (String × PlanItem) :=
  match input.todos with
  | none => []
  | some ts => buildTodos [] 0 ts

/-- PlanTracker.hasPlan: `tasks.size > 0`. -/
def hasPlan (tasks : List (String × PlanItem)) : Bool := tasks.length != 0

/-- PlanTracker.toLinearPlan: values in insertion order, statuses projected
through STATUS_MAP with fallback `pending`. -/
def toLinearPlan (tasks : List (String × PlanItem)) : List PlanItem :=
  tasks.map (fun p =>
    { content := p.2.content, status := (STATUS_MAP p.2.status).getD "pending" })

/-! ### Activity emitter (src/claude/emitter.ts): tool-use correlation -/

/-- An entry of the pending-tool-use registry. -/
structure PendingTool where
  name : String
  input : ToolInput
deriving Repr, DecidableEq

/-- A `tool_use` content block. -/
structure ToolUseBlock where
  id : String
  name : String
  input : ToolInput
deriving Repr, DecidableEq

/-- `tool_result.content`: a string, or an array of `{type, text}` items
(modelled as their `text` fields). -/
inductive ToolResultContent where
  | str : String → ToolResultContent
  | arr : List String → ToolResultContent
deriving Repr, DecidableEq

/-- A `tool_result` content block. -/
structure ToolResultBlock where
  tool_use_id : String
  content : ToolResultContent
  is_error : Bool := false
deriving Repr, DecidableEq

/-- The `content` object of an activity: `{type, body?, action?, parameter?,
result?}`. -/
structure ActivityContent where
  type : String
  body : Option String := none
  action : Option String := none
  parameter : Option String := none
  result : Option String := none
deriving Repr, DecidableEq

/-- One outbound tracker write: `createAgentActivity` (with its ephemeral
flag) or the plan write `updateAgentSession(..., {plan})`. -/
inductive Output where
  | activity (content : ActivityContent) (ephemeral : Bool)
  | planUpdate (plan : List PlanItem)
deriving Repr, DecidableEq

/-- The emitter state the correlation layer touches: the pending-tool-use
map and the plan tracker's task map. -/
structure EmitterState where
  pendingToolUses : List (String × PendingTool)
  tasks : List (String × PlanItem)
deriving Repr, DecidableEq

/-- A fresh ActivityEmitter. -/
def initialEmitter : EmitterState := ⟨[], []⟩

/-- The activity content `{type: 'action', ...mapped}`. -/
def actionContent (m : ToolMapped) : ActivityContent :=
  { type := "action", action := some m.action, parameter := some m.parameter,
    result := m.result }

/-- ActivityEmitter.emitToolUse: always register the pending tool; with no
mapper emit nothing, otherwise emit one ephemeral action (mapper applied
without a result, since there is none yet). -/
def emitToolUse (s : EmitterState) (block : ToolUseBlock) :
    EmitterState × List Output :=
  let s1 := { s with
    pendingToolUses := mapSet s.pendingToolUses block.id ⟨block.name, block.input⟩ }
  match TOOL_MAPPING block.name with
  | none => (s1, [])
  | some mapper => (s1, [.activity (actionContent (mapper block.input none)) true])

/-- Flatten `block.content`: a string as-is, an array joined on newlines. -/
def flattenContent : ToolResultContent → String
  | .str s => s
  | .arr xs => String.intercalate "\n" xs

/-- The marker substring of an agent-reported tool error. -/
def toolUseErrorTag : List Char := "<tool_use_error>".toList

/-- ActivityEmitter.emitToolError: one error activity with body
`**name**` + optional backtick-quoted parameter + ` failed` + optional
`:\n` detail; like the parameter, the detail is appended only when truthy
(present and non-empty). -/
def emitToolError (pending : PendingTool) (mapped : Option ToolMapped)
    (detail : Option String) : Output :=
  let context :=
    match mapped with
    | some m => if m.parameter ≠ "" then " `" ++ m.parameter ++ "`" else ""
    | none => ""
  let suffix := if truthy detail then ":\n" ++ jsStr detail else ""
  .activity
    { type := "error",
      body := some ("**" ++ pending.name ++ "**" ++ context ++ " failed" ++ suffix) }
    false

/-- ActivityEmitter.pushPlan: returns (no write, no rate-limiter token)
unless the tracker has a plan; otherwise one plan write. -/
def pushPlan (tasks : List (String × PlanItem)) : List Output :=
  if hasPlan tasks then [.planUpdate (toLinearPlan tasks)] else []

/-- ActivityEmitter.trackPlanUpdates: drive the reducer for
TaskCreate/TaskUpdate/TodoWrite and then pushPlan; any other tool returns
without touching the plan. -/
def trackPlanUpdates (tasks : List (String × PlanItem)) (pending : PendingTool)
    (resultText : String) : List (String × PlanItem) × List Output :=
  match pending.name with
  | "TaskCreate" =>
    let t := handleTaskCreate tasks pending.input resultText
    (t, pushPlan t)
  | "TaskUpdate" =>
    let t := handleTaskUpdate tasks pending.input
    (t, pushPlan t)
  | "TodoWrite" =>
    let t := handleTodoWrite tasks pending.input
    (t, pushPlan t)
  | _ => (tasks, [])

/-- ActivityEmitter.emitToolResult: drop when the id is not pending, else
consume the pending entry; the two error paths emit exactly the error
activity; the success path drives the plan reducer and then emits the
mapped action when a mapper exists. -/
def emitToolResult (s : EmitterState) (block : ToolResultBlock) :
    EmitterState × List Output :=
  match mapGet s.pendingToolUses block.tool_use_id with
  | none => (s, [])
  | some pending =>
    let s1 := { s with
      pendingToolUses := mapDelete s.pendingToolUses block.tool_use_id }
    let rawContent := flattenContent block.content
    let mapped := (TOOL_MAPPING pending.name).map (fun m => m pending.input (some rawContent))
    if hasSub toolUseErrorTag rawContent.toList then
      (s1, [emitToolError pending mapped none])
    else if block.is_error then
      (s1, [emitToolError pending mapped (some rawContent)])
    else
      let r := trackPlanUpdates s1.tasks pending rawContent
      let actOuts : List Output :=
        match mapped with
        | some m => [.activity (actionContent m) false]
        | none => []
      ({ s1 with tasks := r.1 }, r.2 ++ actOuts)

/-- A correlation-layer event: one `tool_use` or `tool_result` block reaching
the emitter (in journal byte order). -/
inductive EmitterEvent where
  | use (block : ToolUseBlock)
  | result (block : ToolResultBlock)
deriving Repr, DecidableEq

/-- Dispatch of one event. -/
def stepEmitter (s : EmitterState) : EmitterEvent → EmitterState × List Output
  | .use b => emitToolUse s b
  | .result b => emitToolResult s b

/-- Does an event carry the tool-use id `u`? -/
def concernsId (u : String) : EmitterEvent → Bool
  | .use b => b.id = u
  | .result b => b.tool_use_id = u

/-- Is the event a `tool_use` with id `u`? -/
def isUseOf (u : String) : EmitterEvent → Bool
  | .use b => b.id = u
  | _ => false

/-- Is the event a `tool_result` with `tool_use_id = u`? -/
def isResultOf (u : String) : EmitterEvent → Bool
  | .result b => b.tool_use_id = u
  | _ => false

/-- Process a list of events and collect the outputs of exactly those events
that carry the id `u` (each output is produced by one event, so these are
the writes attributable to the pair `u`). -/
def outputsFor (u : String) (s : EmitterState) : List EmitterEvent → List Output
  | [] => []
  | e :: es =>
    let r := stepEmitter s e
    (if concernsId u e then r.2 else []) ++ outputsFor u r.1 es

/-- Is the output an ephemeral activity? -/
def isEphemeralActivity : Output → Bool
  | .activity _ true => true
  | _ => false

/-- Is the output a finalizing (non-ephemeral) activity? -/
def isFinalActivity : Output → Bool
  | .activity _ false => true
  | _ => false

/-- Is the output a plan write? -/
def isPlanWrite : Output → Bool
  | .planUpdate _ => true
  | _ => false

/-! ### Rate limiter (src/rate-limiter.ts)

State and refill are word-for-word from the source (`refillRate` is
`perSecond / 1000` tokens per millisecond; times are in milliseconds as
rationals).  Because `acquire()` awaits a timer when no token is available,
several calls can be in flight at once; `runLimiter` is a discrete-event
model of the single-threaded event loop: each queued item is one
synchronous segment of an `acquire()` call (its entry up to the first
await, or its resumption when the timer fires), segments run in (time,
registration sequence) order, and timers with equal expiry fire in
registration order. -/

/-- `Math.min` on rationals. -/
def jsMin (a b : ℚ) : ℚ := if a ≤ b then a else b

/-- `Math.ceil` on rationals: the least integer that is not below the
argument. -/
def jsCeil (q : ℚ) : Int := -((-q).floor)

/-- RateLimiter state: token count (float) and last-refill timestamp. -/
structure LimiterState where
  tokens : ℚ
  lastRefill : ℚ
deriving Repr, DecidableEq

/-- RateLimiter.refill at time `now`:
`tokens = min(maxTokens, tokens + elapsed * refillRate)`. -/
def refill (refillRate maxTokens : ℚ) (s : LimiterState) (now : ℚ) : LimiterState :=
  ⟨jsMin maxTokens (s.tokens + (now - s.lastRefill) * refillRate), now⟩

/-- One runnable segment of an `acquire()` call: its synchronous entry, or
its resumption after the `setTimeout` sleep. -/
inductive LimiterSegment where
  | entry (time : ℚ) (seq : ℕ)
  | wake (time : ℚ) (seq : ℕ)
deriving Repr, DecidableEq

def segTime : LimiterSegment → ℚ
  | .entry t _ => t
  | .wake t _ => t

def segSeq : LimiterSegment → ℕ
  | .entry _ n => n
  | .wake _ n => n

/-- Insert into the queue keeping it sorted by (time, sequence). -/
def insertSegment (t : LimiterSegment) : List LimiterSegment → List LimiterSegment
  | [] => [t]
  | x :: xs =>
    if segTime t < segTime x ∨ (segTime t = segTime x ∧ segSeq t < segSeq x) then
      t :: x :: xs
    else x :: insertSegment t xs

/-- Run the event loop on a (sorted) queue of segments; returns the times at
which acquisitions complete (the token decrement), in completion order.
An entry segment follows RateLimiter.acquire: refill; if a token is
available take it and complete now, else compute
`waitMs = ceil((1 - tokens) / refillRate)` and schedule the wake; a wake
segment refills again and decrements unconditionally. -/
def runLimiter (refillRate maxTokens : ℚ) :
    ℕ → List LimiterSegment → ℕ → LimiterState → List ℚ
  | 0, _, _, _ => []
  | _ + 1, [], _, _ => []
  | fuel + 1, seg :: rest, seqC, s =>
    match seg with
    | .entry time _ =>
      let s1 := refill refillRate maxTokens s time
      if 1 ≤ s1.tokens then
        time :: runLimiter refillRate maxTokens fuel rest seqC ⟨s1.tokens - 1, s1.lastRefill⟩
      else
        let waitMs : Int := jsCeil ((1 - s1.tokens) / refillRate)
        runLimiter refillRate maxTokens fuel
          (insertSegment (.wake (time + waitMs) seqC) rest) (seqC + 1) s1
    | .wake time _ =>
      let s1 := refill refillRate maxTokens s time
      time :: runLimiter refillRate maxTokens fuel rest seqC ⟨s1.tokens - 1, s1.lastRefill⟩

/-- Completion times of `acquire()` calls issued at the given
(nondecreasing) times against a fresh `RateLimiter({perSecond, burst})`
created at time 0. -/
def acquireCompletions (perSecond : ℚ) (burst : ℕ) (callTimes : List ℚ) : List ℚ :=
  let entries := (callTimes.enum).map (fun p => LimiterSegment.entry p.2 p.1)
  runLimiter (perSecond / 1000) (burst : ℚ) (2 * callTimes.length + 1) entries
    callTimes.length ⟨(burst : ℚ), 0⟩

/-! ### File tailer (src/claude/watcher.ts, readNewLines)

The file is a character list (one `Char` per byte, ASCII inputs).  The
returned triple is the updated tailed-file state, the value `size -
startOffset` the function returns, and the trimmed non-empty lines handed
to `processLine` in order. -/

/-- The tailer fields readNewLines touches. -/
structure TailState where
  byteOffset : Int
  lineBuffer : List Char
deriving Repr, DecidableEq

/-- Watcher.readNewLines on a file with current content `f`: read
`[byteOffset, size)`, prepend the held partial line, set the offset to the
size, split on newlines, and when the data does not end in a newline pop
the last segment back into the buffer and subtract its byte length from
the offset. -/
def readNewLines (f : List Char) (s : TailState) :
    TailState × Int × List (List Char) :=
  let size : Int := f.length
  if size ≤ s.byteOffset then (s, 0, [])
  else
    let chunk := jsSlice f s.byteOffset size
    let startOffset := s.byteOffset
    let data := s.lineBuffer ++ chunk
    let lines := splitAll data
    let st :=
      if jsEndsWithNl data then
        (TailState.mk size [], lines)
      else
        let buf := (lines.getLast?).getD []
        (TailState.mk (size - (buf.length : Int)) buf, lines.dropLast)
    let processed := (st.2.map jsTrim).filter (fun l => l ≠ [])
    (st.1, size - startOffset, processed)

/-! ### Per-line processing (src/claude/watcher.ts, processLine) -/

/-- The fields of a parsed journal record that processLine inspects (`none`
for a field that is absent or not a string). -/
structure JournalEntryInfo where
  uuid : Option String := none
  sessionId : Option String := none
deriving Repr, DecidableEq

/-- The per-file counters processLine updates. -/
structure TailCounters where
  lineCount : Nat
  lastUuid : String
  linesSinceSave : Nat
deriving Repr, DecidableEq

/-- Watcher.processLine, with the outcome of `JSON.parse(line)` passed in
(`none` models the parse throwing).  Returns the updated counters, the
updated known-sessions set, and the record submitted to
`emitter.process` (`none` when the line was dropped). -/
def processLine (f : TailCounters) (known : List String)
    (parsed : Option JournalEntryInfo) :
    TailCounters × List String × Option JournalEntryInfo :=
  match parsed with
  | none => (f, known, none)
  | some entry =>
    let f1 : TailCounters :=
      { lineCount := f.lineCount + 1,
        lastUuid := match entry.uuid with
          | some u => u
          | none => f.lastUuid,
        linesSinceSave := f.linesSinceSave + 1 }
    let known1 := match entry.sessionId with
      | some sid => setAdd known sid
      | none => known
    (f1, known1, some entry)

/-! ### JSON.parse (the external parser processLine calls)

A recursive-descent parser for JSON values (objects, arrays, strings,
numbers, literals), used to decide which delivered lines reach
`emitter.process`: processLine submits a line's parsed record to the
projector and drops the line when `JSON.parse` throws, so the projector
call sequence for a list of delivered lines is their successful parses in
order.  String contents and number lexemes are kept undecoded (escape
sequences are validated but not translated) — enough to decide success and
to distinguish records. -/

/-- Skip JSON whitespace. -/
def skipWs (s : List Char) : List Char := s.dropWhile isWsChar

/-- A parsed JSON value. -/
inductive Jv where
  | null
  | bool (b : Bool)
  | num (lexeme : List Char)
  | str (s : List Char)
  | arr (xs : List Jv)
  | obj (members : List (List Char × Jv))

/-- Consume an expected literal tail (e.g. `ull` after `n`). -/
def stripLit (lit s : List Char) : Option (List Char) :=
  if leadsWith lit s then some (s.drop lit.length) else none

/-- Hexadecimal digit (for `\u` escapes). -/
def isHexDigit (c : Char) : Bool :=
  c.isDigit || ('a' ≤ c && c ≤ 'f') || ('A' ≤ c && c ≤ 'F')

/-- The rest of a JSON string after its opening quote: the (undecoded)
content and the remaining input, or `none` on a malformed string. -/
def parseStringRest : Nat → List Char → Option (List Char × List Char)
  | 0, _ => none
  | _ + 1, [] => none
  | fuel + 1, c :: cs =>
    if c = '"' then some ([], cs)
    else if c = '\\' then
      match cs with
      | [] => none
      | e :: cs2 =>
        if e = 'u' then
          match cs2 with
          | h1 :: h2 :: h3 :: h4 :: cs3 =>
            if isHexDigit h1 && isHexDigit h2 && isHexDigit h3 && isHexDigit h4 then
              (parseStringRest fuel cs3).map
                (fun r => (c :: e :: h1 :: h2 :: h3 :: h4 :: r.1, r.2))
            else none
          | _ => none
        else if e = '"' || e = '\\' || e = '/' || e = 'b' || e = 'f'
            || e = 'n' || e = 'r' || e = 't' then
          (parseStringRest fuel cs2).map (fun r => (c :: e :: r.1, r.2))
        else none
    else (parseStringRest fuel cs).map (fun r => (c :: r.1, r.2))

/-- A JSON number lexeme: optional minus, integer digits, optional
fraction, optional exponent. -/
def parseNumberRest (s : List Char) : Option (List Char × List Char) :=
  let p1 : List Char × List Char :=
    match s with
    | '-' :: rest => (['-'], rest)
    | _ => ([], s)
  let intPart := p1.2.takeWhile Char.isDigit
  if intPart = [] then none
  else
    let s2 := p1.2.drop intPart.length
    let p3 : List Char × List Char :=
      match s2 with
      | '.' :: rest =>
        let ds := rest.takeWhile Char.isDigit
        if ds = [] then ([], s2) else ('.' :: ds, rest.drop ds.length)
      | _ => ([], s2)
    let p4 : List Char × List Char :=
      match p3.2 with
      | e :: rest =>
        if e = 'e' || e = 'E' then
          let q : List Char × List Char :=
            match rest with
            | sg :: rest2 => if sg = '+' || sg = '-' then ([sg], rest2) else ([], rest)
            | [] => ([], rest)
          let ds := q.2.takeWhile Char.isDigit
          if ds = [] then ([], p3.2) else (e :: (q.1 ++ ds), q.2.drop ds.length)
        else ([], p3.2)
      | [] => ([], p3.2)
    some (p1.1 ++ intPart ++ p3.1 ++ p4.1, p4.2)

mutual

/-- One JSON value at the head of the input (after optional whitespace). -/
def parseValue : Nat → List Char → Option (Jv × List Char)
  | 0, _ => none
  | fuel + 1, s =>
    match skipWs s with
    | [] => none
    | c :: rest =>
      if c = '"' then
        (parseStringRest (rest.length + 1) rest).map (fun r => (Jv.str r.1, r.2))
      else if c = '\x7b' then
        match skipWs rest with
        | '\x7d' :: rest2 => some (Jv.obj [], rest2)
        | _ => (parseObjectMembers fuel rest).map (fun r => (Jv.obj r.1, r.2))
      else if c = '[' then
        match skipWs rest with
        | ']' :: rest2 => some (Jv.arr [], rest2)
        | _ => (parseArrayItems fuel rest).map (fun r => (Jv.arr r.1, r.2))
      else if c = 'n' then (stripLit "ull".toList rest).map (fun r => (Jv.null, r))
      else if c = 't' then (stripLit "rue".toList rest).map (fun r => (Jv.bool true, r))
      else if c = 'f' then (stripLit "alse".toList rest).map (fun r => (Jv.bool false, r))
      else if c = '-' || c.isDigit then
        (parseNumberRest (c :: rest)).map (fun r => (Jv.num r.1, r.2))
      else none

/-- The comma-separated items of a non-empty array, up to `]`. -/
def parseArrayItems : Nat → List Char → Option (List Jv × List Char)
  | 0, _ => none
  | fuel + 1, s =>
    match parseValue fuel s with
    | none => none
    | some (v, rest) =>
      match skipWs rest with
      | ',' :: rest2 => (parseArrayItems fuel rest2).map (fun r => (v :: r.1, r.2))
      | ']' :: rest2 => some ([v], rest2)
      | _ => none

/-- The comma-separated members of a non-empty object, up to the closing
brace. -/
def parseObjectMembers : Nat → List Char → Option (List (List Char × Jv) × List Char)
  | 0, _ => none
  | fuel + 1, s =>
    match skipWs s with
    | '"' :: rest =>
      match parseStringRest (rest.length + 1) rest with
      | none => none
      | some (key, rest2) =>
        match skipWs rest2 with
        | ':' :: rest3 =>
          match parseValue fuel rest3 with
          | none => none
          | some (v, rest4) =>
            match skipWs rest4 with
            | ',' :: rest5 =>
              (parseObjectMembers fuel rest5).map (fun r => ((key, v) :: r.1, r.2))
            | '\x7d' :: rest5 => some ([(key, v)], rest5)
            | _ => none
        | _ => none
    | _ => none

end

/-- `JSON.parse(line)`: one value covering the whole text (`none` models
the parse throwing). -/
def jsonParse (line : List Char) : Option Jv :=
  match parseValue (line.length + 1) line with
  | some (v, rest) => if skipWs rest = [] then some v else none
  | none => none

/-- The sequence of `emitter.process` calls made for a list of delivered
lines: processLine submits each successfully parsed record to the
projector and drops the rest (watcher.ts, processLine). -/
def projectorCalls (lines : List (List Char)) : List Jv :=
  lines.filterMap jsonParse

/-! ### Successor scanner (src/claude/watcher.ts) -/

/-- Watcher.isLinkedSession on a candidate file's content: look at the first
32 KiB, split on newlines, keep the first 5 segments
(`MAX_LINK_CHECK_LINES`), skip the ones that trim to empty, and accept as
soon as a line parses as JSON with a truthy `sessionId` in the
known-sessions set.  `parse` models `JSON.parse` plus `.sessionId`
extraction (`none` when the parse throws or the field is absent). -/
def isLinkedSession (content : List Char) (parse : List Char → Option String)
    (known : List String) : Bool :=
  let head := content.take 32768
  let lines := (splitAll head).take 5
  lines.any (fun line =>
    if jsTrim line = [] then false
    else
      match parse line with
      | some sid => sid ≠ "" && decide (sid ∈ known)
      | none => false)

/-- The scanner's state: files already checked, files being tailed. -/
structure ScanState where
  checkedFiles : List String
  files : List String
deriving Repr, DecidableEq

/-- Watcher.addFile (the part visible to the scanner): already-tailed paths
are skipped, an adopted path joins the polling set and the checked set. -/
def addFile (st : ScanState) (path : String) : ScanState :=
  if path ∈ st.files then st
  else { checkedFiles := setAdd st.checkedFiles path, files := st.files ++ [path] }

/-- One candidate of Watcher.scanForSuccessors: skip when already checked,
else mark checked and adopt when linked. -/
def scanStep (parse : List Char → Option String) (known : List String)
    (st : ScanState) (candidate : String × List Char) : ScanState :=
  if candidate.1 ∈ st.checkedFiles then st
  else if isLinkedSession candidate.2 parse known then
    addFile { st with checkedFiles := st.checkedFiles ++ [candidate.1] } candidate.1
  else { st with checkedFiles := st.checkedFiles ++ [candidate.1] }

/-- Watcher.scanForSuccessors over the candidate list (each candidate is a
path with the content its head would read as). -/
def scanForSuccessors (parse : List Char → Option String) (known : List String)
    (st : ScanState) (candidates : List (String × List Char)) : ScanState :=
  candidates.foldl (scanStep parse known) st

/-! ### Spec-side definitions used by counterexamples -/

/-- Modelled from the spec's words (tool-map table, Bash row): the fenced
code block with language `diff` that the claim predicts for the result of a
command matching the git-diff pattern. -/
def claimedGitDiffFenced (result : String) : String :=
  "```diff\n" ++ result ++ "\n```"

/-- Modelled from the spec's words (successor scanning): examine "the first
5 non-empty lines" of the first 32 KiB, i.e. filter the empty lines out
first and then take five. -/
def claimedLinkedSession (content : List Char) (parse : List Char → Option String)
    (known : List String) : Bool :=
  let head := content.take 32768
  let lines := ((splitAll head).filter (fun l => jsTrim l ≠ [])).take 5
  lines.any (fun line =>
    match parse line with
    | some sid => sid ≠ "" && decide (sid ∈ known)
    | none => false)

/-- The error-activity body of the amended claim: bold tool name,
backtick-quoted parameter when non-empty, ` failed`, and `:\n` plus the
detail when the detail is present and non-empty (statement-side
abbreviation). -/
def claimedErrorBody (name parameter : String) (detail : Option String) : String :=
  "**" ++ name ++ "**"
    ++ (if parameter ≠ "" then " `" ++ parameter ++ "`" else "")
    ++ " failed"
    ++ (match detail with
        | some d => if d = "" then "" else ":\n" ++ d
        | none => "")

/-- The parameter of the pending tool's mapper applied to the flattened
result, or the empty string when the tool has no mapper (statement-side
abbreviation). -/
def mappedParameterOf (pending : PendingTool) (raw : String) : String :=
  match TOOL_MAPPING pending.name with
  | some m => (m pending.input (some raw)).parameter
  | none => ""

/-! ### Theorems -/

/-- emitToolUse of a mapped tool emits exactly one ephemeral action (the
mapper applied without a result). -/
theorem emitToolUse_outputs_mapped (s : EmitterState) (b : ToolUseBlock)
    (m : ToolInput → Option String → ToolMapped)
    (h : TOOL_MAPPING b.name = some m) :
    (emitToolUse s b).2 = [.activity (actionContent (m b.input none)) true] := by
  simp [emitToolUse, h]

/-- emitToolUse never emits a finalizing activity. -/
theorem emitToolUse_no_final (s : EmitterState) (b : ToolUseBlock) :
    (emitToolUse s b).2.filter isFinalActivity = [] := by
  unfold emitToolUse
  cases h : TOOL_MAPPING b.name <;> simp [isFinalActivity]

/-- pushPlan emits no ephemeral activity (only a plan write, if anything). -/
theorem pushPlan_filter_eph (t : List (String × PlanItem)) :
    (pushPlan t).filter isEphemeralActivity = [] := by
  unfold pushPlan
  split <;> simp [isEphemeralActivity]

/-- pushPlan emits no finalizing activity. -/
theorem pushPlan_filter_final (t : List (String × PlanItem)) :
    (pushPlan t).filter isFinalActivity = [] := by
  unfold pushPlan
  split <;> simp [isFinalActivity]

/-- trackPlanUpdates emits no ephemeral activity. -/
theorem trackPlanUpdates_filter_eph (t : List (String × PlanItem))
    (p : PendingTool) (raw : String) :
    (trackPlanUpdates t p raw).2.filter isEphemeralActivity = [] := by
  unfold trackPlanUpdates
  split <;> simp [pushPlan_filter_eph]

/-- trackPlanUpdates emits no finalizing activity. -/
theorem trackPlanUpdates_filter_final (t : List (String × PlanItem))
    (p : PendingTool) (raw : String) :
    (trackPlanUpdates t p raw).2.filter isFinalActivity = [] := by
  unfold trackPlanUpdates
  split <;> simp [pushPlan_filter_final]

/-- emitToolResult never emits an ephemeral activity, whatever the state. -/
theorem emitToolResult_filter_eph (s : EmitterState) (b : ToolResultBlock) :
    (emitToolResult s b).2.filter isEphemeralActivity = [] := by
  rcases hg : mapGet s.pendingToolUses b.tool_use_id with _ | p
  · simp [emitToolResult, hg]
  · by_cases h1 : hasSub toolUseErrorTag (flattenContent b.content).toList = true
    · simp only [emitToolResult, hg, h1, if_true]
      rfl
    · rw [Bool.not_eq_true] at h1
      by_cases h2 : b.is_error = true
      · simp only [emitToolResult, hg, h1, h2, Bool.false_eq_true, if_false, if_true]
        rfl
      · rw [Bool.not_eq_true] at h2
        simp only [emitToolResult, hg, h1, h2, Bool.false_eq_true, if_false]
        rw [List.filter_append, trackPlanUpdates_filter_eph]
        cases hm : TOOL_MAPPING p.name with
        | none => simp [hm]
        | some m => simp [hm, isEphemeralActivity]

/-- emitToolResult emits at most one finalizing activity, whatever the
state. -/
theorem emitToolResult_final_le_one (s : EmitterState) (b : ToolResultBlock) :
    ((emitToolResult s b).2.filter isFinalActivity).length ≤ 1 := by
  rcases hg : mapGet s.pendingToolUses b.tool_use_id with _ | p
  · simp only [emitToolResult, hg]
    simp
  · by_cases h1 : hasSub toolUseErrorTag (flattenContent b.content).toList = true
    · simp only [emitToolResult, hg, h1, if_true]
      exact (List.length_filter_le _ _).trans (by simp)
    · rw [Bool.not_eq_true] at h1
      by_cases h2 : b.is_error = true
      · simp only [emitToolResult, hg, h1, h2, Bool.false_eq_true, if_false, if_true]
        exact (List.length_filter_le _ _).trans (by simp)
      · rw [Bool.not_eq_true] at h2
        simp only [emitToolResult, hg, h1, h2, Bool.false_eq_true, if_false]
        rw [List.filter_append, List.length_append, trackPlanUpdates_filter_final]
        cases hm : TOOL_MAPPING p.name with
        | none => simp [hm]
        | some m => simp [hm, isFinalActivity]

/-- An event concerns `u` exactly when it is the tool_use of `u` or a
tool_result for `u`. -/
theorem concernsId_eq (u : String) (e : EmitterEvent) :
    concernsId u e = (isUseOf u e || isResultOf u e) := by
  cases e <;> simp [concernsId, isUseOf, isResultOf]

/-- Events that do not concern `u` contribute nothing to `outputsFor u`. -/
theorem outputsFor_nil_of_none (u : String) :
    ∀ (es : List EmitterEvent) (s : EmitterState),
      (∀ e ∈ es, concernsId u e = false) → outputsFor u s es = [] := by
  intro es
  induction es with
  | nil => intro s _; rfl
  | cons e tl ih =>
    intro s h
    unfold outputsFor
    rw [h e (List.mem_cons_self e tl)]
    simp only [Bool.false_eq_true, if_false, List.nil_append]
    exact ih _ (fun d hd => h d (List.mem_cons_of_mem e hd))

/-- Without a tool_use of `u`, no ephemeral activity is attributed to `u`
(results never emit ephemerals). -/
theorem outputsFor_eph_of_no_use (u : String) :
    ∀ (es : List EmitterEvent) (s : EmitterState),
      (∀ e ∈ es, isUseOf u e = false) →
      (outputsFor u s es).filter isEphemeralActivity = [] := by
  intro es
  induction es with
  | nil => intro s _; rfl
  | cons e tl ih =>
    intro s h
    unfold outputsFor
    rw [List.filter_append]
    have htl := ih (stepEmitter s e).1 (fun d hd => h d (List.mem_cons_of_mem e hd))
    rw [htl]
    cases e with
    | use b =>
      have hb := h (.use b) (List.mem_cons_self _ tl)
      have : concernsId u (.use b) = false := by
        rw [concernsId_eq]
        simp [hb, isResultOf]
      rw [this]
      simp
    | result b =>
      by_cases hc : concernsId u (.result b) = true
      · rw [hc]
        simp [emitToolResult_filter_eph s b, stepEmitter]
      · rw [Bool.not_eq_true] at hc
        rw [hc]
        simp

/-- The finalizing activities attributed to `u` number at most the
tool_result events for `u`. -/
theorem outputsFor_final_le (u : String) :
    ∀ (es : List EmitterEvent) (s : EmitterState),
      ((outputsFor u s es).filter isFinalActivity).length
        ≤ es.countP (isResultOf u) := by
  intro es
  induction es with
  | nil => intro s; simp [outputsFor]
  | cons e tl ih =>
    intro s
    unfold outputsFor
    rw [List.filter_append, List.length_append, List.countP_cons]
    have htl := ih (stepEmitter s e).1
    cases e with
    | use b =>
      have : concernsId u (.use b) = true → (stepEmitter s (.use b)).2.filter isFinalActivity = [] :=
        fun _ => emitToolUse_no_final s b
      by_cases hc : concernsId u (.use b) = true
      · rw [hc]
        simp only [if_true, this hc, List.length_nil, Nat.zero_add, isResultOf,
          Bool.false_eq_true, if_false, Nat.add_zero]
        exact htl
      · rw [Bool.not_eq_true] at hc
        rw [hc]
        simp only [Bool.false_eq_true, if_false, List.filter_nil, List.length_nil,
          Nat.zero_add, isResultOf, Nat.add_zero]
        exact htl
    | result b =>
      by_cases hc : concernsId u (.result b) = true
      · rw [hc]
        have hcount : isResultOf u (.result b) = true := by
          rw [concernsId_eq] at hc
          simpa [isUseOf] using hc
        rw [hcount]
        simp only [if_true]
        have hhead := emitToolResult_final_le_one s b
        calc ((emitToolResult s b).2.filter isFinalActivity).length
              + ((outputsFor u (stepEmitter s (.result b)).1 tl).filter isFinalActivity).length
            ≤ 1 + tl.countP (isResultOf u) := Nat.add_le_add hhead htl
          _ = tl.countP (isResultOf u) + 1 := Nat.add_comm _ _
      · rw [Bool.not_eq_true] at hc
        rw [hc]
        have hcount : isResultOf u (.result b) = false := by
          rw [concernsId_eq] at hc
          exact (Bool.or_eq_false_iff.mp hc).2
        rw [hcount]
        simp only [Bool.false_eq_true, if_false, List.filter_nil, List.length_nil,
          Nat.zero_add, Nat.add_zero]
        exact htl

/-- With exactly one tool_use of `u`, mapped, the ephemeral activities
attributed to `u` are exactly the one ephemeral action. -/
theorem outputsFor_eph_exact (u : String) (b : ToolUseBlock)
    (m : ToolInput → Option String → ToolMapped) :
    ∀ (es : List EmitterEvent) (s : EmitterState),
      es.filter (isUseOf u) = [.use b] →
      TOOL_MAPPING b.name = some m →
      (outputsFor u s es).filter isEphemeralActivity
        = [.activity (actionContent (m b.input none)) true] := by
  intro es
  induction es with
  | nil => intro s h _; cases h
  | cons e tl ih =>
    intro s h hm
    unfold outputsFor
    rw [List.filter_append]
    by_cases hu : isUseOf u e = true
    · rw [List.filter_cons_of_pos hu] at h
      have he : e = .use b := (List.cons_eq_cons.mp h).1
      have htl0 : tl.filter (isUseOf u) = [] := (List.cons_eq_cons.mp h).2
      have htlnone : ∀ d ∈ tl, isUseOf u d = false := by
        intro d hd
        have := List.filter_eq_nil_iff.mp htl0 d hd
        exact Bool.not_eq_true _ ▸ (by simpa using this)
      subst he
      have hcid : concernsId u (EmitterEvent.use b) = true := by
        rw [concernsId_eq]
        simp [hu]
      rw [hcid]
      simp only [if_true]
      have hhead : (stepEmitter s (.use b)).2 = [.activity (actionContent (m b.input none)) true] :=
        emitToolUse_outputs_mapped s b m hm
      rw [hhead]
      rw [outputsFor_eph_of_no_use u tl _ htlnone]
      simp [isEphemeralActivity]
    · rw [Bool.not_eq_true] at hu
      rw [List.filter_cons_of_neg (by simp [hu])] at h
      have htl := ih (stepEmitter s e).1 h hm
      rw [htl]
      cases e with
      | use b2 =>
        have : concernsId u (.use b2) = false := by
          rw [concernsId_eq]
          simp [hu, isResultOf]
        rw [this]
        simp
      | result b2 =>
        by_cases hc : concernsId u (.result b2) = true
        · rw [hc]
          simp [emitToolResult_filter_eph s b2, stepEmitter]
        · rw [Bool.not_eq_true] at hc
          rw [hc]
          simp

/-- With exactly one tool_use of `u`, mapped, and no tool_result for `u`,
the outputs attributed to `u` are exactly the one ephemeral action and
nothing else. -/
theorem outputsFor_exact_no_result (u : String) (b : ToolUseBlock)
    (m : ToolInput → Option String → ToolMapped) :
    ∀ (es : List EmitterEvent) (s : EmitterState),
      es.filter (isUseOf u) = [.use b] →
      (∀ e ∈ es, isResultOf u e = false) →
      TOOL_MAPPING b.name = some m →
      outputsFor u s es = [.activity (actionContent (m b.input none)) true] := by
  intro es
  induction es with
  | nil => intro s h _ _; cases h
  | cons e tl ih =>
    intro s h hr hm
    unfold outputsFor
    by_cases hu : isUseOf u e = true
    · rw [List.filter_cons_of_pos hu] at h
      have he : e = .use b := (List.cons_eq_cons.mp h).1
      have htl0 : tl.filter (isUseOf u) = [] := (List.cons_eq_cons.mp h).2
      subst he
      have hcid : concernsId u (EmitterEvent.use b) = true := by
        rw [concernsId_eq]
        simp [hu]
      rw [hcid]
      simp only [if_true, stepEmitter]
      rw [emitToolUse_outputs_mapped s b m hm]
      have htlnone : ∀ d ∈ tl, concernsId u d = false := by
        intro d hd
        rw [concernsId_eq]
        have h1 := List.filter_eq_nil_iff.mp htl0 d hd
        have h2 := hr d (List.mem_cons_of_mem _ hd)
        simp [h2, by simpa using h1]
      rw [outputsFor_nil_of_none u tl _ htlnone]
      rfl
    · rw [Bool.not_eq_true] at hu
      rw [List.filter_cons_of_neg (by simp [hu])] at h
      have hcid : concernsId u e = false := by
        rw [concernsId_eq]
        simp [hu, hr e (List.mem_cons_self e tl)]
      rw [hcid]
      simp only [Bool.false_eq_true, if_false, List.nil_append]
      exact ih _ h (fun d hd => hr d (List.mem_cons_of_mem e hd)) hm

/-- C1, counterexample: a tool_use whose name has no mapper (here
`Mystery`) and no tool_result produces no output at all — not the exactly
one ephemeral action the claim states. -/
theorem C1_unmapped_tool_no_ephemeral :
    (outputsFor "u9" initialEmitter [.use ⟨"u9", "Mystery", {}⟩] = []) ∧
    ¬(((outputsFor "u9" initialEmitter [.use ⟨"u9", "Mystery", {}⟩]).filter
        isEphemeralActivity).length = 1) := by
  decide

/-- C1, amended: for every tool_use with id `u` whose tool name has a
mapper in TOOL_MAPPING (an unmapped name emits nothing,
`C1_unmapped_tool_no_ephemeral`) and which is the only tool_use with that
id in the file, followed by at most one tool_result with `tool_use_id = u`:
exactly one ephemeral action is attributed to the pair, at most one
finalizing (non-ephemeral) activity is, and when no tool_result for `u`
ever arrives the pair's outputs are exactly the one ephemeral action. -/
theorem C1_correlation (u : String) (b : ToolUseBlock)
    (m : ToolInput → Option String → ToolMapped) (es : List EmitterEvent)
    (huse : es.filter (isUseOf u) = [.use b])
    (hm : TOOL_MAPPING b.name = some m)
    (hres : es.countP (isResultOf u) ≤ 1) :
    ((outputsFor u initialEmitter es).filter isEphemeralActivity
        = [.activity (actionContent (m b.input none)) true]) ∧
    (((outputsFor u initialEmitter es).filter isFinalActivity).length ≤ 1) ∧
    (es.countP (isResultOf u) = 0 →
      outputsFor u initialEmitter es
        = [.activity (actionContent (m b.input none)) true]) := by
  refine ⟨outputsFor_eph_exact u b m es initialEmitter huse hm,
    le_trans (outputsFor_final_le u es initialEmitter) hres, ?_⟩
  intro h0
  have hnone : ∀ e ∈ es, isResultOf u e = false := by
    intro e he
    have := List.countP_eq_zero.mp h0 e he
    simpa using this
  exact outputsFor_exact_no_result u b m es initialEmitter huse hnone hm

/-- C1, witness: the spec's scenario 3 — `tool_use {id: u1, name: Read}`
followed by its single tool_result — satisfies the hypotheses, and the pair
gets exactly one ephemeral `Read file` action and at most one finalizing
activity. -/
theorem C1_correlation_witness :
    (([EmitterEvent.use ⟨"u1", "Read", { file_path := some "/f.ts" }⟩,
        EmitterEvent.result ⟨"u1", .str "file contents", false⟩].filter
          (isUseOf "u1")
        = [.use ⟨"u1", "Read", { file_path := some "/f.ts" }⟩]) ∧
      ([EmitterEvent.use ⟨"u1", "Read", { file_path := some "/f.ts" }⟩,
        EmitterEvent.result ⟨"u1", .str "file contents", false⟩].countP
          (isResultOf "u1") ≤ 1)) ∧
    (((outputsFor "u1" initialEmitter
        [.use ⟨"u1", "Read", { file_path := some "/f.ts" }⟩,
         .result ⟨"u1", .str "file contents", false⟩]).filter
          isEphemeralActivity
        = [.activity (actionContent (readMapper { file_path := some "/f.ts" } none))
            true]) ∧
      (((outputsFor "u1" initialEmitter
          [.use ⟨"u1", "Read", { file_path := some "/f.ts" }⟩,
           .result ⟨"u1", .str "file contents", false⟩]).filter
            isFinalActivity).length ≤ 1) ∧
      ([EmitterEvent.use ⟨"u1", "Read", { file_path := some "/f.ts" }⟩,
        EmitterEvent.result ⟨"u1", .str "file contents", false⟩].countP
          (isResultOf "u1") = 0 →
        outputsFor "u1" initialEmitter
          [.use ⟨"u1", "Read", { file_path := some "/f.ts" }⟩,
           .result ⟨"u1", .str "file contents", false⟩]
          = [.activity (actionContent (readMapper { file_path := some "/f.ts" } none))
              true])) := by
  refine ⟨⟨by decide, by decide⟩, ?_⟩
  exact C1_correlation "u1" ⟨"u1", "Read", { file_path := some "/f.ts" }⟩
    readMapper
    [.use ⟨"u1", "Read", { file_path := some "/f.ts" }⟩,
     .result ⟨"u1", .str "file contents", false⟩]
    (by decide) rfl (by decide)

/-- C2, counterexample: a pending `Bash` whose result carries `is_error`
with empty flattened content gets the error body `**Bash** failed` — the
`detail` is spread through a JS truthiness check, so no `:\n` suffix is
appended for the empty string, while the claim's body formula predicts
`**Bash** failed:\n` (base + ":\n" + flattened text) in every `is_error`
case. -/
theorem C2_is_error_empty_detail :
    ((emitToolResult ⟨[("u1", PendingTool.mk "Bash" {})], []⟩
        ⟨"u1", .str "", true⟩).2
      = [Output.activity { type := "error", body := some "**Bash** failed" }
          false]) ∧
    ("**Bash** failed" ≠ "**Bash** failed" ++ ":\n" ++ "") := by
  decide

/-- C2, amended: when a pending tool's result either contains
`<tool_use_error>` in its flattened content or carries `is_error`, the
emitter emits exactly one error activity — body `**name**`, then the
mapper's parameter in backticks when non-empty, then ` failed`, with `:\n`
and the flattened text appended only on the `is_error` branch and only
when the flattened text is non-empty — and on these paths the plan reducer
is never invoked (the task map is unchanged and no plan write or action
activity appears among the outputs). -/
theorem C2_tool_error_activity (s : EmitterState) (block : ToolResultBlock)
    (p : PendingTool)
    (hp : mapGet s.pendingToolUses block.tool_use_id = some p) :
    (hasSub toolUseErrorTag (flattenContent block.content).toList = true →
      (emitToolResult s block).2
          = [Output.activity
              { type := "error",
                body := some (claimedErrorBody p.name
                  (mappedParameterOf p (flattenContent block.content)) none) }
              false]
        ∧ (emitToolResult s block).1.tasks = s.tasks) ∧
    (hasSub toolUseErrorTag (flattenContent block.content).toList = false →
      block.is_error = true →
      (emitToolResult s block).2
          = [Output.activity
              { type := "error",
                body := some (claimedErrorBody p.name
                  (mappedParameterOf p (flattenContent block.content))
                  (some (flattenContent block.content))) }
              false]
        ∧ (emitToolResult s block).1.tasks = s.tasks) := by
  have hbody : ∀ (detail : Option String),
      emitToolError p ((TOOL_MAPPING p.name).map
        (fun m => m p.input (some (flattenContent block.content)))) detail
        = .activity
            { type := "error",
              body := some (claimedErrorBody p.name
                (mappedParameterOf p (flattenContent block.content)) detail) }
            false := by
    intro detail
    have hsuffix : (if truthy detail then ":\n" ++ jsStr detail else "")
        = (match detail with
           | some d => if d = "" then "" else ":\n" ++ d
           | none => "") := by
      cases detail with
      | none => rfl
      | some d =>
        by_cases hd : d = ""
        · simp [truthy, jsStr, hd]
        · simp [truthy, jsStr, hd]
    unfold emitToolError claimedErrorBody mappedParameterOf
    cases hm : TOOL_MAPPING p.name with
    | none => simp [hsuffix]
    | some m => simp [hsuffix]
  constructor
  · intro h1
    constructor
    · simp only [emitToolResult, hp, h1, if_true]
      exact congrArg (fun o => [o]) (hbody none)
    · simp only [emitToolResult, hp, h1, if_true]
  · intro h1 h2
    constructor
    · simp only [emitToolResult, hp, h1, h2, Bool.false_eq_true, if_false, if_true]
      exact congrArg (fun o => [o]) (hbody (some (flattenContent block.content)))
    · simp only [emitToolResult, hp, h1, h2, Bool.false_eq_true, if_false, if_true]

/-- C2, witness: the spec's scenario 4 — a pending `Bash {command:
"rm -rf /"}` whose result is `is_error` with content `Permission denied`
yields exactly the error activity with body
`**Bash** ` + backtick-quoted command + ` failed:\nPermission denied`, and
the task map stays empty. -/
theorem C2_tool_error_activity_witness :
    (mapGet [("u1", PendingTool.mk "Bash" { command := some "rm -rf /" })] "u1"
        = some (PendingTool.mk "Bash" { command := some "rm -rf /" })) ∧
    (claimedErrorBody "Bash"
        (mappedParameterOf (PendingTool.mk "Bash" { command := some "rm -rf /" })
          "Permission denied")
        (some "Permission denied")
      = "**Bash** `rm -rf /` failed:\nPermission denied") ∧
    ((emitToolResult
        ⟨[("u1", PendingTool.mk "Bash" { command := some "rm -rf /" })], []⟩
        ⟨"u1", .str "Permission denied", true⟩).2
      = [Output.activity
          { type := "error",
            body := some (claimedErrorBody "Bash"
              (mappedParameterOf
                (PendingTool.mk "Bash" { command := some "rm -rf /" })
                (flattenContent (.str "Permission denied")))
              (some (flattenContent (.str "Permission denied")))) }
          false]
      ∧ (emitToolResult
          ⟨[("u1", PendingTool.mk "Bash" { command := some "rm -rf /" })], []⟩
          ⟨"u1", .str "Permission denied", true⟩).1.tasks = []) := by
  refine ⟨by decide, by decide, ?_⟩
  exact (C2_tool_error_activity
    ⟨[("u1", PendingTool.mk "Bash" { command := some "rm -rf /" })], []⟩
    ⟨"u1", .str "Permission denied", true⟩
    (PendingTool.mk "Bash" { command := some "rm -rf /" })
    (by decide)).2 (by decide) rfl

/-- C3, counterexample: processing a journal line whose content is not
valid JSON (`JSON.parse` throws, so the parsed value is `none`) leaves
`lineCount` at 0 — it is not one greater than before, as the claim
states. -/
theorem C3_lineCount_not_advanced :
    (processLine ⟨0, "", 0⟩ [] none).1.lineCount = 0 ∧
      ¬((processLine ⟨0, "", 0⟩ [] none).1.lineCount = 0 + 1) := by
  decide

/-- C3, amended: for every journal line whose content is not valid JSON,
the tailer drops the line — no record reaches the projector — and the
per-file counters (lineCount, lastUuid, linesSinceSave) and the
known-sessions set are left unchanged; lineCount counts only successfully
parsed records. -/
theorem C3_malformed_line_dropped :
    ∀ (f : TailCounters) (known : List String),
      processLine f known none = (f, known, none) := by
  intro f known
  rfl

/-- C5: the journal record `{"type":"summary","summary":"hi"}` followed by
a newline, fed to `readNewLines` as two chunks split after byte 11
(`{"type":"su` appended first, the rest appended before the second call),
produces zero `emitter.process` calls — the held partial line is both kept
in `lineBuffer` and re-read from the rewound `byteOffset`, so the second
call delivers the garbled line `{"type":"su{"type":"summary",...}`, whose
`JSON.parse` fails — while feeding the same content in one chunk parses
the record and calls the projector once with it.  The projector call
sequences (`[]` versus one call) differ, contradicting the claim and the
repository's own test that a buffered partial joined with the next chunk
yields the original record. -/
theorem C5_chunked_feed_diverges :
    (projectorCalls
        ((readNewLines ("\x7b\"type\":\"su".toList) ⟨0, []⟩).2.2 ++
          (readNewLines ("\x7b\"type\":\"summary\",\"summary\":\"hi\"\x7d\n".toList)
            (readNewLines ("\x7b\"type\":\"su".toList) ⟨0, []⟩).1).2.2)
      = []) ∧
    (projectorCalls
        ((readNewLines ("\x7b\"type\":\"summary\",\"summary\":\"hi\"\x7d\n".toList)
          ⟨0, []⟩).2.2)
      = [Jv.obj [("type".toList, Jv.str "summary".toList),
                 ("summary".toList, Jv.str "hi".toList)]]) ∧
    (([] : List Jv)
      ≠ [Jv.obj [("type".toList, Jv.str "summary".toList),
                 ("summary".toList, Jv.str "hi".toList)]]) := by
  refine ⟨rfl, rfl, Ne.symm (List.cons_ne_nil _ _)⟩

/-- C6, counterexample: on a file whose content `"ab"` has no newline, the
first `readNewLines` call leaves `byteOffset = 0` (2 bytes read, 2 rewound
for the partial line), and a second call on the unchanged file drops
`byteOffset` to `-2`: the recorded byte offset decreases, refuting the
monotonicity conjunct of the claim. -/
theorem C6_byteOffset_decreases :
    ((readNewLines ("ab".toList) ⟨0, []⟩).1.byteOffset = 0) ∧
    ((readNewLines ("ab".toList)
        (readNewLines ("ab".toList) ⟨0, []⟩).1).1.byteOffset = -2) ∧
    ((-2 : Int) < (0 : Int)) := by
  decide

/-- C6, amended: after every `readNewLines` call, the recorded byte offset
equals the observed file size minus the byte length of the residual
partial-line buffer (and a call that observes no new bytes changes
nothing); the monotonicity conjunct of the claim is false
(`C6_byteOffset_decreases`), because the rewound offset re-covers bytes
that are also retained in the buffer. -/
theorem C6_offset_buffer_equation :
    ∀ (f : List Char) (s : TailState),
      ((f.length : Int) ≤ s.byteOffset → readNewLines f s = (s, 0, [])) ∧
      (s.byteOffset < (f.length : Int) →
        (readNewLines f s).1.byteOffset
          = (f.length : Int) - ((readNewLines f s).1.lineBuffer.length : Int)) := by
  intro f s
  constructor
  · intro h
    simp [readNewLines, h]
  · intro h
    simp only [readNewLines, if_neg (not_le.mpr h)]
    split
    · simp
    · simp

/-- C4: with `perSecond = 1000`, `burst = 1` and three `acquire()` calls at
time 0 (one takes the initial token; the two others become waiters whose
timers both expire 1 ms later), the woken waiters each refill and then
decrement without re-checking the token count, so all three acquisitions
complete within the closed window `[0 ms, 1 ms]` — 3 acquisitions where
the claimed cap `burst + perSecond·Δ` for `Δ = 1/1000 s` allows only 2.
The repository's own rate-limiter test expects the second waiter to still
be pending after the first refill, which this run contradicts. -/
theorem C4_window_cap_exceeded :
    (acquireCompletions 1000 1 [0, 0, 0] = [0, 1, 1]) ∧
    ((acquireCompletions 1000 1 [0, 0, 0]).countP
        (fun t => decide (0 ≤ t ∧ t ≤ 0 + 1000 * (1 / 1000))) = 3) ∧
    ¬((3 : ℚ) ≤ 1 + 1000 * (1 / 1000)) := by
  have h : acquireCompletions 1000 1 [0, 0, 0] = [0, 1, 1] := by
    norm_num [acquireCompletions, runLimiter, refill, jsMin, jsCeil, insertSegment,
      segTime, segSeq, List.enum, List.enumFrom, Rat.floor]
  refine ⟨h, ?_, by norm_num⟩
  rw [h]
  norm_num [List.countP, List.countP.go]

/-- C7, counterexample: for the input `{command: "git diff"}` with result
`"x"`, the Bash mapper returns the result verbatim (`"x"`), not the fenced
diff code block the claim predicts. -/
theorem C7_no_diff_fencing :
    ((TOOL_MAPPING "Bash").map
        (fun m => m { command := some "git diff" } (some "x"))
      = some { action := "Ran command", parameter := "git diff",
               result := some "x" }) ∧
    (some "x" ≠ some (claimedGitDiffFenced "x")) := by
  constructor
  · rfl
  · decide

/-- C7, amended: for every Bash invocation the mapper returns action
`"Ran command"` and parameter `input.command` (defaulting to the empty
string), and the result is passed through verbatim exactly when it is
present and non-empty; there is no git-diff or JSON fenced-block
formatting. -/
theorem C7_bash_mapper_verbatim :
    ∀ (input : ToolInput) (result : Option String),
      (TOOL_MAPPING "Bash").map (fun m => m input result)
        = some { action := "Ran command", parameter := input.command.getD "",
                 result := match result with
                   | some r => if r = "" then none else some r
                   | none => none } := by
  intro input result
  cases result with
  | none => rfl
  | some r =>
    by_cases hr : r = ""
    · simp [TOOL_MAPPING, bashMapper, truthy, jsStr, hr]
    · simp [TOOL_MAPPING, bashMapper, truthy, jsStr, hr]

/-- C8, counterexample: a candidate file whose first five newline-separated
segments are empty and whose sixth line links to a known session is not
adopted — the scanner takes the first five segments and only then skips
the empty ones — although under the claim's reading (examine the first
five non-empty lines) it would be. -/
theorem C8_first_five_counts_empties :
    (isLinkedSession ("\n\n\n\n\nLINK".toList)
        (fun l => if l = "LINK".toList then some "S" else none) ["S"] = false) ∧
    (claimedLinkedSession ("\n\n\n\n\nLINK".toList)
        (fun l => if l = "LINK".toList then some "S" else none) ["S"] = true) := by
  decide

/-- Membership is preserved by `setAdd`. -/
theorem setAdd_mem_of_mem {l : List String} {x y : String} (h : y ∈ l) :
    y ∈ setAdd l x := by
  unfold setAdd
  split
  · exact h
  · exact List.mem_append_left _ h

/-- Adopting a file never removes a path from the checked set. -/
theorem addFile_checked_mono {st : ScanState} {p x : String}
    (h : x ∈ st.checkedFiles) : x ∈ (addFile st p).checkedFiles := by
  unfold addFile
  split
  · exact h
  · exact setAdd_mem_of_mem h

/-- A scan step never removes a path from the checked set. -/
theorem scanStep_checked_mono {parse : List Char → Option String}
    {known : List String} {st : ScanState} {c : String × List Char} {x : String}
    (h : x ∈ st.checkedFiles) :
    x ∈ (scanStep parse known st c).checkedFiles := by
  unfold scanStep
  split
  · exact h
  · split
    · exact addFile_checked_mono (List.mem_append_left _ h)
    · exact List.mem_append_left _ h

/-- After a scan step, the candidate is in the checked set. -/
theorem scanStep_checks_candidate (parse : List Char → Option String)
    (known : List String) (st : ScanState) (c : String × List Char) :
    c.1 ∈ (scanStep parse known st c).checkedFiles := by
  unfold scanStep
  split
  · assumption
  · have hm : c.1 ∈ st.checkedFiles ++ [c.1] :=
      List.mem_append_right _ (List.mem_singleton.mpr rfl)
    split
    · exact addFile_checked_mono hm
    · exact hm

/-- An already-checked candidate is skipped unchanged. -/
theorem scanStep_skips_checked {parse : List Char → Option String}
    {known : List String} {st : ScanState} {c : String × List Char}
    (h : c.1 ∈ st.checkedFiles) :
    scanStep parse known st c = st := by
  unfold scanStep
  simp [h]

/-- A whole scan never removes a path from the checked set. -/
theorem scan_checked_mono {parse : List Char → Option String}
    {known : List String} {x : String} :
    ∀ {cs : List (String × List Char)} {st : ScanState},
      x ∈ st.checkedFiles →
      x ∈ (scanForSuccessors parse known st cs).checkedFiles := by
  intro cs
  induction cs with
  | nil => intro st h; exact h
  | cons c cs ih =>
    intro st h
    exact ih (scanStep_checked_mono h)

/-- After a scan, every candidate of the list is checked. -/
theorem scan_checks_all (parse : List Char → Option String) (known : List String) :
    ∀ (cs : List (String × List Char)) (st : ScanState),
      ∀ c ∈ cs, c.1 ∈ (scanForSuccessors parse known st cs).checkedFiles := by
  intro cs
  induction cs with
  | nil => intro st c hc; cases hc
  | cons d cs ih =>
    intro st c hc
    rcases List.mem_cons.mp hc with h | h
    · subst h
      show c.1 ∈ (scanForSuccessors parse known (scanStep parse known st c) cs).checkedFiles
      exact scan_checked_mono (scanStep_checks_candidate parse known st c)
    · exact ih _ c h

/-- A scan whose candidates are all already checked does nothing. -/
theorem scan_noop {parse : List Char → Option String} {known : List String} :
    ∀ {cs : List (String × List Char)} {st : ScanState},
      (∀ c ∈ cs, c.1 ∈ st.checkedFiles) →
      scanForSuccessors parse known st cs = st := by
  intro cs
  induction cs with
  | nil => intro st _; rfl
  | cons c cs ih =>
    intro st h
    have hstep : scanStep parse known st c = st :=
      scanStep_skips_checked (h c (List.mem_cons_self c cs))
    show scanForSuccessors parse known (scanStep parse known st c) cs = st
    rw [hstep]
    exact ih (fun d hd => h d (List.mem_cons_of_mem c hd))

/-- C8, amended: a candidate file is adopted if and only if one of the
non-empty (after trimming) lines among the first five newline-separated
segments of its first 32 KiB parses as JSON with a truthy `sessionId` in
the known-sessions set (the scanner counts empty segments against the
five-line budget, rather than examining the first five non-empty lines);
and re-scanning an already-scanned candidate list changes nothing — every
checked file, adopted or not, is never re-examined. -/
theorem C8_successor_scan :
    (∀ (content : List Char) (parse : List Char → Option String)
        (known : List String),
      isLinkedSession content parse known = true ↔
        ∃ line ∈ ((splitAll (content.take 32768)).take 5).filter
            (fun l => jsTrim l ≠ []),
          ∃ sid, parse line = some sid ∧ sid ≠ "" ∧ sid ∈ known) ∧
    (∀ (parse : List Char → Option String) (known : List String)
        (st : ScanState) (cs : List (String × List Char)),
      scanForSuccessors parse known (scanForSuccessors parse known st cs) cs
        = scanForSuccessors parse known st cs) := by
  constructor
  · intro content parse known
    unfold isLinkedSession
    rw [List.any_eq_true]
    constructor
    · rintro ⟨line, hmem, hline⟩
      by_cases ht : jsTrim line = []
      · rw [if_pos ht] at hline; cases hline
      · rw [if_neg ht] at hline
        cases hp : parse line with
        | none => rw [hp] at hline; cases hline
        | some sid =>
          rw [hp] at hline
          have h2 := Bool.and_eq_true_iff.mp hline
          refine ⟨line, List.mem_filter.mpr ⟨hmem, by simpa using ht⟩,
            sid, hp, by simpa using h2.1, by simpa using h2.2⟩
    · rintro ⟨line, hmem, sid, hp, hne, hk⟩
      have hm := List.mem_filter.mp hmem
      refine ⟨line, hm.1, ?_⟩
      rw [if_neg (by simpa using hm.2), hp]
      simp [hne, hk]
  · intro parse known st cs
    exact scan_noop (scan_checks_all parse known cs st)

/-- C10: a successful (non-error) TodoWrite result whose input clears the
plan — `todos` absent or the empty array — issues no plan write: the
reducer leaves the task map empty, and `pushPlan` on an empty map returns
(before acquiring a rate-limiter token) without emitting
`updateAgentSession`, so the tracker keeps the last plan it was sent.  (In
fact nothing at all is emitted here: TodoWrite has no mapper, so no action
activity follows either.) -/
theorem C10_clearing_todo_write_skips_plan_write
    (s : EmitterState) (block : ToolResultBlock) (input : ToolInput)
    (hp : mapGet s.pendingToolUses block.tool_use_id
        = some (PendingTool.mk "TodoWrite" input))
    (ht : input.todos = none ∨ input.todos = some [])
    (he : hasSub toolUseErrorTag (flattenContent block.content).toList = false)
    (hie : block.is_error = false) :
    ((emitToolResult s block).2.filter isPlanWrite = []) ∧
    ((emitToolResult s block).2 = []) ∧
    ((emitToolResult s block).1.tasks = []) ∧
    (pushPlan (emitToolResult s block).1.tasks = []) := by
  have hclear : handleTodoWrite s.tasks input = [] := by
    rcases ht with h | h <;> simp [handleTodoWrite, h, buildTodos]
  have houts : emitToolResult s block
      = (EmitterState.mk (mapDelete s.pendingToolUses block.tool_use_id) [], []) := by
    simp only [emitToolResult, hp, he, hie, Bool.false_eq_true, if_false]
    simp only [trackPlanUpdates, hclear, pushPlan, hasPlan]
    rfl
  rw [houts]
  exact ⟨rfl, rfl, rfl, rfl⟩

/-- C10, witness: with a pending `TodoWrite` whose input has `todos: []`
and a successful empty result, the emitter emits nothing — in particular
no plan write — and the task map stays empty. -/
theorem C10_clearing_todo_write_witness :
    (mapGet [("u1", PendingTool.mk "TodoWrite" { todos := some [] })] "u1"
        = some (PendingTool.mk "TodoWrite" { todos := some [] })) ∧
    ((emitToolResult ⟨[("u1", PendingTool.mk "TodoWrite" { todos := some [] })], []⟩
        ⟨"u1", .str "ok", false⟩).2.filter isPlanWrite = []
      ∧ (emitToolResult ⟨[("u1", PendingTool.mk "TodoWrite" { todos := some [] })], []⟩
          ⟨"u1", .str "ok", false⟩).2 = []
      ∧ (emitToolResult ⟨[("u1", PendingTool.mk "TodoWrite" { todos := some [] })], []⟩
          ⟨"u1", .str "ok", false⟩).1.tasks = []
      ∧ pushPlan (emitToolResult
          ⟨[("u1", PendingTool.mk "TodoWrite" { todos := some [] })], []⟩
          ⟨"u1", .str "ok", false⟩).1.tasks = []) := by
  refine ⟨by decide, ?_⟩
  exact C10_clearing_todo_write_skips_plan_write
    ⟨[("u1", PendingTool.mk "TodoWrite" { todos := some [] })], []⟩
    ⟨"u1", .str "ok", false⟩ { todos := some [] }
    (by decide) (Or.inr rfl) (by decide) rfl

/-- C9: applying the same TodoWrite input twice in succession yields the
same plan snapshot as applying it once — handleTodoWrite clears the task
map before rebuilding it from the input alone, so the second application
rebuilds the identical map. -/
theorem C9_todo_write_idempotent :
    ∀ (tasks : List (String × PlanItem)) (input : ToolInput),
      toLinearPlan (handleTodoWrite (handleTodoWrite tasks input) input)
        = toLinearPlan (handleTodoWrite tasks input) := by
  intro tasks input
  rfl

end LinearAgent
